import Mathlib

/-!
Shallow embedding of `src/stride_conv.py` (the strided window reduction engine).

The Python source is:

```
def stride_conv(array, kernel, s):
    width, height = array.shape
    kernw, kernh = kernel.shape
    beg = 0
    end = kernw
    final = []
    xlim = (width - (width % kernw)) - 1
    for i in range(0, xlim, s):
        k = []
        ylim = (height - (height % kernh)) - 1
        for j in range(0, ylim, s):
            k.append(np.sum(array[beg+i: end+i, beg+j:end+j] * (kernel)))
        final.append(k)
    return np.array(final)
```

Grids are lists of rows of integers.  The embedding reproduces the Python /
numpy semantics that the function actually exercises:

* `pyRange stop step` is Python `range(0, stop, step)` (for `step ≠ 0`);
  a zero step raises `ValueError`, modelled by the explicit guard in
  `stride_conv` (Python raises at the `range` call in the outer loop header,
  after `xlim` is computed and before any window is touched).
* `pySlice l a b` is Python/numpy slicing `l[a:b]` with clipping at the ends
  and negative-index wrap-around; `slice2d` applies it on both axes.
* `npMulSum x y` is `np.sum(x * y)`: numpy element-wise multiplication with
  2-D broadcasting (dimensions must be equal or one of them 1, a dimension of
  size 1 being repeated), followed by summation of all entries; incompatible
  shapes raise `ValueError`.
* An empty list of rows corresponds to `np.array([])`, which is 1-dimensional,
  so the tuple unpacking `width, height = array.shape` raises `ValueError`;
  this is the first guard.  A kernel with rows present but of length zero
  makes `height % kernh` raise `ZeroDivisionError` inside the loop body.
* Exceptions abort the whole call; `exceptMap` sequences the loop iterations
  and propagates the first error, exactly as the Python loops do.

Machine integers do not overflow here (numpy uses int64 and the spec demands
a wide accumulator), so grid elements are modelled as `Int`.
-/

/-- Number of elements of Python `range(0, stop, step)` for `step ≠ 0`
(zero steps are rejected by the caller before this is used). -/
def pyRangeCount (stop step : Int) : Nat :=
  if 0 < step then (stop.toNat + step.toNat - 1) / step.toNat
  else if step < 0 then ((-stop).toNat + (-step).toNat - 1) / (-step).toNat
  else 0

/-- Python `range(0, stop, step)` as a list: `[0, step, 2*step, ...]`. -/
def pyRange (stop step : Int) : List Int :=
  (List.range (pyRangeCount stop step)).map (fun k : Nat => (k : Int) * step)

/-- Python sequence slicing `l[a:b]` (unit step): indices are clipped to the
valid range, and negative indices count from the end. -/
def pySlice {α : Type} (l : List α) (a b : Int) : List α :=
  let n : Int := l.length
  let a2 : Int := if a < 0 then max (n + a) 0 else min a n
  let b2 : Int := if b < 0 then max (n + b) 0 else min b n
  (l.take b2.toNat).drop a2.toNat

/-- numpy 2-D slicing `g[r1:r2, c1:c2]`. -/
def slice2d (g : List (List Int)) (r1 r2 c1 c2 : Int) : List (List Int) :=
  (pySlice g r1 r2).map (fun row => pySlice row c1 c2)

/-- numpy broadcasting compatibility of two dimension sizes. -/
def bcompat (a c : Nat) : Bool := a == c || a == 1 || c == 1

/-- Size of the broadcast dimension (valid under `bcompat`). -/
def bdim (a c : Nat) : Nat := if a = 1 then c else a

/-- Index into a possibly-broadcast (size-1, repeated) dimension. -/
def bidx (a i : Nat) : Nat := if a = 1 then 0 else i

/-- Entry of a rectangular 2-D list (total, with a default of 0; it is only
used at indices inside the shape). -/
def elemAt (g : List (List Int)) (i j : Nat) : Int := (g.getD i []).getD j 0

/-- numpy `np.sum(x * y)` for 2-D operands: broadcast element-wise product,
then the sum of all entries; incompatible shapes raise `ValueError`. -/
def npMulSum (x y : List (List Int)) : Except String Int :=
  let a := x.length
  let b := (x.headD []).length
  let c := y.length
  let d := (y.headD []).length
  if bcompat a c && bcompat b d then
    .ok (((List.range (bdim a c)).map (fun i =>
      ((List.range (bdim b d)).map (fun j =>
        elemAt x (bidx a i) (bidx b j) * elemAt y (bidx c i) (bidx d j))).sum)).sum)
  else .error "ValueError: operands could not be broadcast together"

/-- Sequence a fallible computation over a list, keeping the first error:
this is how the Python `for` loops with `append` behave under exceptions. -/
def exceptMap {α β : Type} (f : α → Except String β) : List α → Except String (List β)
  | [] => .ok []
  | x :: xs =>
    match f x with
    | .error e => .error e
    | .ok b =>
      match exceptMap f xs with
      | .error e => .error e
      | .ok bs => .ok (b :: bs)

/-- The `stride_conv` function of `src/stride_conv.py`.  `width, height` and
`kernw, kernh` come from the numpy shapes; `beg = 0` and `end = kernw` are the
source's slice offsets (note that the source uses `end = kernw` on BOTH axes).
The result is the list `final` of output rows (`np.array(final)` keeps its
row/column structure). -/
def stride_conv (array kernel : List (List Int)) (s : Int) : Except String (List (List Int)) :=
  if array.length = 0 ∨ kernel.length = 0 then
    .error "ValueError: not enough values to unpack"
  else
    let width : Int := array.length
    let height : Int := (array.headD []).length
    let kernw : Int := kernel.length
    let kernh : Int := (kernel.headD []).length
    let beg : Int := 0
    let endw : Int := kernw
    let xlim : Int := (width - (width % kernw)) - 1
    if s = 0 then .error "ValueError: range() arg 3 must not be zero"
    else
      exceptMap (fun i =>
        if kernh = 0 then .error "ZeroDivisionError: integer modulo by zero"
        else
          let ylim : Int := (height - (height % kernh)) - 1
          exceptMap (fun j =>
            npMulSum (slice2d array (beg + i) (endw + i) (beg + j) (endw + j)) kernel)
            (pyRange ylim s))
        (pyRange xlim s)

/-- The truncated usable extent of §4.1: `extent - (extent mod kernelExtent) - 1`. -/
def usable (extent kern : Int) : Int := (extent - (extent % kern)) - 1

/-- The module-level example grid `arr` of `src/stride_conv.py`: row `r`
(0-indexed) is filled with `r + 1`. -/
def arr : List (List Int) :=
  [[1, 1, 1, 1, 1, 1, 1],
   [2, 2, 2, 2, 2, 2, 2],
   [3, 3, 3, 3, 3, 3, 3],
   [4, 4, 4, 4, 4, 4, 4],
   [5, 5, 5, 5, 5, 5, 5],
   [6, 6, 6, 6, 6, 6, 6],
   [7, 7, 7, 7, 7, 7, 7]]

/-- The module-level 3×3 all-ones kernel of `src/stride_conv.py`. -/
def kernel : List (List Int) :=
  [[1, 1, 1],
   [1, 1, 1],
   [1, 1, 1]]

/-- The module-level `result = stride_conv(arr, kernel, 3)`. -/
def result : Except String (List (List Int)) := stride_conv arr kernel 3

/-- A 2-D list is rectangular: every row has the length of the first row. -/
def isRect (g : List (List Int)) : Bool :=
  g.all (fun row => row.length == (g.headD []).length)

/-- The all-ones kernel of shape `w × h`. -/
def allOnes (w h : Nat) : List (List Int) := List.replicate w (List.replicate h 1)

/-- Modelled from the spec: §4.1 states that the window at anchor `(i, j)`
spans `[i, i+kernelWidth) × [j, j+kernelHeight)` and that the default
reduction is the sum of the element-wise product of that window with the
kernel.  This definition follows those words (the source instead slices both
axes with `end = kernw`); it exists only to be compared with `stride_conv`. -/
def spec_window_sum (g k : List (List Int)) (i j : Int) : Int :=
  (List.zipWith (fun wrow krow => (List.zipWith (fun x y => x * y) wrow krow).sum)
    (slice2d g i (i + k.length) j (j + (k.headD []).length)) k).sum

/-! ### Lemmas about `pyRange` -/

theorem pyRange_length (stop step : Int) :
    (pyRange stop step).length = pyRangeCount stop step := by
  unfold pyRange
  rw [List.length_map, List.length_range]

theorem pyRange_getElem (stop step : Int) (n : Nat)
    (h : n < (pyRange stop step).length) :
    (pyRange stop step)[n] = (n : Int) * step := by
  simp only [pyRange, List.getElem_map, List.getElem_range]

theorem pyRangeCount_one (stop : Int) : pyRangeCount stop 1 = stop.toNat := by
  unfold pyRangeCount
  norm_num

theorem pyRangeCount_lt_stop (stop step : Int) (hs : 0 < step) (n : Nat)
    (h : n < pyRangeCount stop step) : (n : Int) * step < stop := by
  unfold pyRangeCount at h
  rw [if_pos hs] at h
  have hsN : 0 < step.toNat := by omega
  have h2 : n + 1 ≤ (stop.toNat + step.toNat - 1) / step.toNat := h
  rw [Nat.le_div_iff_mul_le hsN] at h2
  rw [Nat.add_mul, Nat.one_mul] at h2
  have h3 : n * step.toNat < stop.toNat := by omega
  have h7 : 0 < stop.toNat := Nat.lt_of_le_of_lt (Nat.zero_le _) h3
  have h4 : (n : Int) * (step.toNat : Int) < (stop.toNat : Int) := by
    exact_mod_cast h3
  have h5 : ((step.toNat : Nat) : Int) = step := by omega
  have h6 : ((stop.toNat : Nat) : Int) = stop := by omega
  rw [h5, h6] at h4
  exact h4

theorem pyRangeCount_le_one (stop step : Int) (hs : 1 ≤ step) (h : stop < step) :
    pyRangeCount stop step ≤ 1 := by
  unfold pyRangeCount
  rw [if_pos (by omega : (0:Int) < step)]
  have h1 : stop.toNat ≤ step.toNat := by omega
  have h2 : 0 < step.toNat := by omega
  have h3 : stop.toNat + step.toNat - 1 < 2 * step.toNat := by omega
  have := (Nat.div_lt_iff_lt_mul h2).mpr (by omega : stop.toNat + step.toNat - 1 < 2 * step.toNat)
  omega

theorem pyRangeCount_neg_of_nonneg (stop step : Int) (hstep : step < 0)
    (hstop : 0 ≤ stop) : pyRangeCount stop step = 0 := by
  unfold pyRangeCount
  rw [if_neg (by omega), if_pos hstep]
  have h1 : (-stop).toNat = 0 := by omega
  rw [h1]
  exact Nat.div_eq_of_lt (by omega)

theorem pyRange_eq_nil (stop step : Int) (h : pyRangeCount stop step = 0) :
    pyRange stop step = [] := by
  unfold pyRange
  rw [h]
  rfl

/-! ### Lemmas about `exceptMap` -/

theorem exceptMap_length {α β : Type} (f : α → Except String β) (l : List α)
    (out : List β) (h : exceptMap f l = .ok out) : out.length = l.length := by
  induction l generalizing out with
  | nil =>
    simp only [exceptMap] at h
    cases h
    rfl
  | cons x xs ih =>
    simp only [exceptMap] at h
    cases hf : f x with
    | error e => rw [hf] at h; cases h
    | ok b =>
      rw [hf] at h
      cases hr : exceptMap f xs with
      | error e => rw [hr] at h; cases h
      | ok bs =>
        rw [hr] at h
        cases h
        simp [ih bs hr]

theorem exceptMap_getElem {α β : Type} (f : α → Except String β) (l : List α)
    (out : List β) (h : exceptMap f l = .ok out) (n : Nat) (hn : n < l.length)
    (hn2 : n < out.length) : f l[n] = .ok out[n] := by
  induction l generalizing out n with
  | nil => exact absurd hn (by simp)
  | cons x xs ih =>
    simp only [exceptMap] at h
    cases hf : f x with
    | error e => rw [hf] at h; cases h
    | ok b =>
      rw [hf] at h
      cases hr : exceptMap f xs with
      | error e => rw [hr] at h; cases h
      | ok bs =>
        rw [hr] at h
        cases h
        cases n with
        | zero => simpa using hf
        | succ m =>
          have hm : m < xs.length := by simpa using hn
          have hm2 : m < bs.length := by simpa using hn2
          simpa using ih bs hr m hm hm2

theorem exceptMap_mem {α β : Type} (f : α → Except String β) (l : List α)
    (out : List β) (h : exceptMap f l = .ok out) (b : β) (hb : b ∈ out) :
    ∃ a ∈ l, f a = .ok b := by
  induction l generalizing out with
  | nil =>
    simp only [exceptMap] at h
    cases h
    cases hb
  | cons x xs ih =>
    simp only [exceptMap] at h
    cases hf : f x with
    | error e => rw [hf] at h; cases h
    | ok c =>
      rw [hf] at h
      cases hr : exceptMap f xs with
      | error e => rw [hr] at h; cases h
      | ok bs =>
        rw [hr] at h
        cases h
        rcases List.mem_cons.mp hb with hb1 | hb2
        · exact ⟨x, List.mem_cons_self x xs, hb1 ▸ hf⟩
        · obtain ⟨a, ha, hfa⟩ := ih bs hr hb2
          exact ⟨a, List.mem_cons_of_mem x ha, hfa⟩

theorem exceptMap_ok_of_forall {α β : Type} (f : α → Except String β) (g : α → β)
    (l : List α) (h : ∀ a ∈ l, f a = .ok (g a)) :
    exceptMap f l = .ok (l.map g) := by
  induction l with
  | nil => rfl
  | cons x xs ih =>
    simp only [exceptMap]
    rw [h x (List.mem_cons_self x xs), ih (fun a ha => h a (List.mem_cons_of_mem x ha))]
    rfl

theorem exceptMap_error_of_head {α β : Type} (f : α → Except String β) (x : α)
    (xs : List α) (e : String) (hf : f x = .error e) :
    exceptMap f (x :: xs) = .error e := by
  simp only [exceptMap]
  rw [hf]

/-! ### Structure of `stride_conv` -/

theorem stride_conv_eq (g k : List (List Int)) (s : Int)
    (hA : g.length ≠ 0) (hK : k.length ≠ 0) (hs : s ≠ 0) :
    stride_conv g k s =
      exceptMap (fun i =>
        if ((k.headD []).length : Int) = 0 then
          .error "ZeroDivisionError: integer modulo by zero"
        else
          exceptMap (fun j =>
            npMulSum (slice2d g i ((k.length : Int) + i) j ((k.length : Int) + j)) k)
            (pyRange (usable ((g.headD []).length : Int) ((k.headD []).length : Int)) s))
        (pyRange (usable (g.length : Int) (k.length : Int)) s) := by
  simp only [stride_conv, usable]
  rw [if_neg (not_or.mpr ⟨hA, hK⟩), if_neg hs]
  simp only [zero_add]

theorem stride_conv_ok_guards (g k : List (List Int)) (s : Int)
    (out : List (List Int)) (h : stride_conv g k s = .ok out) :
    g.length ≠ 0 ∧ k.length ≠ 0 ∧ s ≠ 0 := by
  by_cases h1 : g.length = 0 ∨ k.length = 0
  · rcases h1 with h1 | h1
    · rw [List.length_eq_zero] at h1
      simp [stride_conv, h1] at h
    · rw [List.length_eq_zero] at h1
      simp [stride_conv, h1] at h
  · push_neg at h1
    by_cases h2 : s = 0
    · subst h2
      simp [stride_conv, h1.1, h1.2] at h
    · exact ⟨h1.1, h1.2, h2⟩

theorem stride_conv_out_length (g k : List (List Int)) (s : Int)
    (out : List (List Int)) (h : stride_conv g k s = .ok out) :
    out.length = pyRangeCount (usable (g.length : Int) (k.length : Int)) s := by
  obtain ⟨hA, hK, hs⟩ := stride_conv_ok_guards g k s out h
  rw [stride_conv_eq g k s hA hK hs] at h
  have h2 := exceptMap_length _ _ _ h
  rw [pyRange_length] at h2
  exact h2

theorem stride_conv_row_length (g k : List (List Int)) (s : Int)
    (out : List (List Int)) (h : stride_conv g k s = .ok out)
    (row : List Int) (hrow : row ∈ out) :
    row.length = pyRangeCount (usable ((g.headD []).length : Int) ((k.headD []).length : Int)) s := by
  obtain ⟨hA, hK, hs⟩ := stride_conv_ok_guards g k s out h
  rw [stride_conv_eq g k s hA hK hs] at h
  obtain ⟨a, ha, hfa⟩ := exceptMap_mem _ _ _ h row hrow
  by_cases hkh : ((k.headD []).length : Int) = 0
  · rw [if_pos hkh] at hfa
    cases hfa
  · rw [if_neg hkh] at hfa
    have h2 := exceptMap_length _ _ _ hfa
    rw [pyRange_length] at h2
    exact h2

/-! ### Arithmetic facts about the usable extent -/

theorem usable_eq_neg_one (w kw : Nat) (h : w < kw) :
    usable (w : Int) (kw : Int) = -1 := by
  unfold usable
  rw [Int.emod_eq_of_lt (by exact_mod_cast Nat.zero_le w) (by exact_mod_cast h)]
  ring

theorem usable_nonneg (w kw : Nat) (h1 : 1 ≤ kw) (h2 : kw ≤ w) :
    0 ≤ usable (w : Int) (kw : Int) := by
  unfold usable
  have hpos : (0 : Int) < (kw : Int) := by exact_mod_cast h1
  have hm1 : (w : Int) % (kw : Int) < (kw : Int) := Int.emod_lt_of_pos _ hpos
  have hm2 : 0 ≤ (w : Int) % (kw : Int) := Int.emod_nonneg _ (by omega)
  have hle : (kw : Int) ≤ (w : Int) := by exact_mod_cast h2
  omega

theorem pyRangeCount_neg_one (s : Int) (hs : 1 ≤ s) : pyRangeCount (-1) s = 0 := by
  unfold pyRangeCount
  rw [if_pos (by omega : (0 : Int) < s)]
  have h0 : ((-1 : Int)).toNat = 0 := rfl
  rw [h0]
  exact Nat.div_eq_of_lt (by omega)

/-! ### Claim C1 -/

/-- Claim C1: for every grid, kernel and stride s ≥ 1, the anchors enumerated
along each axis are exactly `range(0, usableExtent, s)` with
`usableExtent = extent - (extent mod kernelExtent) - 1` (width axis from
kernelWidth, height axis from kernelHeight), so a successful call returns
exactly `len(range(0, xlim, s))` rows, each with `len(range(0, ylim, s))`
entries; and this count is not the closed form
`floor((extent - kernelExtent)/stride) + 1` (at extent 9, kernel 3, stride 1
the enumeration gives 8 anchors while the closed form gives 7). -/
theorem C1_dimension_law (g k : List (List Int)) (s : Int) (hs : 1 ≤ s)
    (out : List (List Int)) (h : stride_conv g k s = .ok out) :
    out.length = (pyRange (usable (g.length : Int) (k.length : Int)) s).length ∧
    (∀ row ∈ out, row.length =
      (pyRange (usable ((g.headD []).length : Int) ((k.headD []).length : Int)) s).length) ∧
    (pyRange (usable 9 3) 1).length ≠ (9 - 3) / 1 + 1 := by
  refine ⟨?_, ?_, by decide⟩
  · rw [pyRange_length]
    exact stride_conv_out_length g k s out h
  · intro row hrow
    rw [pyRange_length]
    exact stride_conv_row_length g k s out h row hrow

/-- Witness for C1 at the source's own example (grid `arr`, 3×3 kernel, stride 3). -/
theorem C1_dimension_law_witness :
    ([[18, 18], [45, 45]] : List (List Int)).length =
      (pyRange (usable (arr.length : Int) (kernel.length : Int)) 3).length ∧
    (∀ row ∈ ([[18, 18], [45, 45]] : List (List Int)), row.length =
      (pyRange (usable ((arr.headD []).length : Int) ((kernel.headD []).length : Int)) 3).length) ∧
    (pyRange (usable 9 3) 1).length ≠ (9 - 3) / 1 + 1 :=
  C1_dimension_law arr kernel 3 (by decide) [[18, 18], [45, 45]] rfl

/-! ### Claim C9 -/

/-- Claim C9: for every valid call (rectangular inputs, stride ≥ 1), every row
of a successful result has the same length, the number of inner-axis anchors
`len(range(0, (height - height mod kernelHeight) - 1, stride))`, because the
inner limit is recomputed identically on every outer iteration. -/
theorem C9_rectangular (g k : List (List Int)) (s : Int) (hs : 1 ≤ s)
    (hg : isRect g = true) (hk : isRect k = true)
    (out : List (List Int)) (h : stride_conv g k s = .ok out) :
    ∀ row ∈ out, row.length =
      pyRangeCount (usable ((g.headD []).length : Int) ((k.headD []).length : Int)) s :=
  fun row hrow => stride_conv_row_length g k s out h row hrow

/-- Witness for C9 at the source's own example, instantiated at its first row. -/
theorem C9_rectangular_witness :
    ([18, 18] : List Int).length =
      pyRangeCount (usable ((arr.headD []).length : Int) ((kernel.headD []).length : Int)) 3 :=
  C9_rectangular arr kernel 3 (by decide) (by decide) (by decide) [[18, 18], [45, 45]] rfl
    [18, 18] (by decide)

/-! ### Claim C7 -/

/-- Claim C7: if the stride exceeds the usable extent along an axis, a
successful result has at most one row (resp. every row has at most one entry)
along that axis, since only the zero anchor is enumerated there. -/
theorem C7_large_stride (g k : List (List Int)) (s : Int) (hs : 1 ≤ s)
    (out : List (List Int)) (h : stride_conv g k s = .ok out) :
    (usable (g.length : Int) (k.length : Int) < s → out.length ≤ 1) ∧
    (usable ((g.headD []).length : Int) ((k.headD []).length : Int) < s →
      ∀ row ∈ out, row.length ≤ 1) := by
  constructor
  · intro hlt
    rw [stride_conv_out_length g k s out h]
    exact pyRangeCount_le_one _ s hs hlt
  · intro hlt row hrow
    rw [stride_conv_row_length g k s out h row hrow]
    exact pyRangeCount_le_one _ s hs hlt

/-- Witness for C7: grid `arr`, kernel 3×3, stride 6 > usable extent 5. -/
theorem C7_large_stride_witness :
    (([[(18 : Int)]] : List (List Int)).length ≤ 1) ∧
    (∀ row ∈ ([[(18 : Int)]] : List (List Int)), row.length ≤ 1) := by
  have h := C7_large_stride arr kernel 6 (by decide) [[18]] rfl
  exact ⟨h.1 (by decide), h.2 (by decide)⟩

/-! ### Claim C8 -/

/-- Claim C8: the reduction is deterministic: two calls with identical grid,
kernel and stride produce identical outputs (the embedding is a pure total
function of its arguments, so no input is mutated). -/
theorem C8_deterministic (g1 g2 k1 k2 : List (List Int)) (s1 s2 : Int)
    (hg : g1 = g2) (hk : k1 = k2) (hs : s1 = s2) :
    stride_conv g1 k1 s1 = stride_conv g2 k2 s2 := by
  rw [hg, hk, hs]

/-- Witness for C8 at the source's own example. -/
theorem C8_deterministic_witness :
    stride_conv arr kernel 3 = stride_conv arr kernel 3 :=
  C8_deterministic arr arr kernel kernel 3 3 rfl rfl rfl

/-! ### Claim C3 -/

/-- Claim C3 counterexample: on the source's 7×7 grid (row r filled with r+1),
3×3 all-ones kernel and stride 3, the call does NOT return a 1×1 result [[9]]:
it returns the 2×2 result [[18, 18], [45, 45]] (range(0, 5, 3) has two
anchors, 0 and 3, and the top-left window holds rows of 1s, 2s and 3s). -/
theorem C3_counterexample :
    stride_conv arr kernel 3 = .ok [[18, 18], [45, 45]] ∧
    stride_conv arr kernel 3 ≠ .ok [[9]] := by
  refine ⟨rfl, fun hc => ?_⟩
  rw [show stride_conv arr kernel 3 = .ok [[18, 18], [45, 45]] from rfl] at hc
  exact absurd (Except.ok.inj hc) (by decide)

/-- Claim C3 amended: with the 7×7 grid, 3×3 all-ones kernel and stride 3, the
enumeration walks two anchors (0 and 3) per axis and returns the 2×2 result
[[18, 18], [45, 45]]. -/
theorem C3_amended :
    pyRange (usable (arr.length : Int) (kernel.length : Int)) 3 = [0, 3] ∧
    pyRange (usable ((arr.headD []).length : Int) ((kernel.headD []).length : Int)) 3 = [0, 3] ∧
    stride_conv arr kernel 3 = .ok [[18, 18], [45, 45]] :=
  ⟨by decide, by decide, rfl⟩

/-! ### Claim C5 -/

/-- Claim C5 counterexample: stride -1 is ≤ 0 yet no error is raised; the call
returns the empty result. -/
theorem C5_counterexample : stride_conv arr kernel (-1) = .ok [] := rfl

/-- Claim C5 amended: stride = 0 raises the invalid-step error, and it does so
for every grid and kernel (hence before any window extraction depends on the
data); strictly negative strides do not raise. -/
theorem C5_amended (g k : List (List Int)) (hg : 1 ≤ g.length) (hk : 1 ≤ k.length) :
    stride_conv g k 0 = .error "ValueError: range() arg 3 must not be zero" := by
  have h1 : ¬(g.length = 0 ∨ k.length = 0) := by omega
  simp only [stride_conv]
  rw [if_neg h1]
  simp

/-- Witness for the amended C5 at the source's own example. -/
theorem C5_amended_witness :
    stride_conv arr kernel 0 = .error "ValueError: range() arg 3 must not be zero" :=
  C5_amended arr kernel (by decide) (by decide)

/-! ### Claim C10 -/

/-- Claim C10 counterexample: grid [[5]], 2×2 all-ones kernel, stride -1: both
usable extents are -1, so range(0, -1, -1) enumerates the anchor 0, the clipped
window [[5]] broadcasts against the 2×2 kernel, and the call returns [[20]] —
one row, not an empty result. -/
theorem C10_counterexample :
    stride_conv [[5]] [[1, 1], [1, 1]] (-1) = .ok [[20]] ∧
    ([[(20 : Int)]] : List (List Int)).length ≠ 0 :=
  ⟨rfl, by decide⟩

/-- Claim C10 amended: for s < 0, whenever the kernel's row count fits the grid
(kernelWidth ≤ width, kernelWidth ≥ 1), the outer usable extent is nonnegative,
range(0, xlim, s) is empty, and the call silently returns the empty result with
zero rows; only a kernel overhanging the grid makes a negative stride
enumerate the zero anchor. -/
theorem C10_amended (g k : List (List Int)) (s : Int) (hs : s < 0)
    (hk : 1 ≤ k.length) (hwk : k.length ≤ g.length) :
    stride_conv g k s = .ok [] := by
  have hc : pyRangeCount (usable (g.length : Int) (k.length : Int)) s = 0 :=
    pyRangeCount_neg_of_nonneg _ _ hs (usable_nonneg g.length k.length hk hwk)
  rw [stride_conv_eq g k s (by omega) (by omega) (by omega), pyRange_eq_nil _ _ hc]
  rfl

/-- Witness for the amended C10 at the source's own example. -/
theorem C10_amended_witness : stride_conv arr kernel (-1) = .ok [] :=
  C10_amended arr kernel (-1) (by decide) (by decide) (by decide)

/-! ### Claim C4 -/

/-- Claim C4 counterexample: grid [[1],[2]] (width 2, height 1) with kernel
[[1,1]] (kernelHeight 2 > height 1) and stride 1: the call succeeds but the
result is [[]] — one (empty) row, not zero rows. -/
theorem C4_counterexample :
    stride_conv [[1], [2]] [[1, 1]] 1 = .ok [[]] ∧
    ([([] : List Int)] : List (List Int)).length ≠ 0 :=
  ⟨rfl, by decide⟩

/-- Claim C4 amended: for stride ≥ 1 the call always succeeds when the kernel
overhangs the grid, but the result is empty in the axis-specific sense: if
kernelWidth > width the result has zero rows, while if kernelHeight > height
the result has one empty row per outer anchor (zero columns). -/
theorem C4_amended (g k : List (List Int)) (s : Int) (hs : 1 ≤ s)
    (hg : 1 ≤ g.length) (hk : 1 ≤ k.length) :
    (g.length < k.length → stride_conv g k s = .ok []) ∧
    ((g.headD []).length < (k.headD []).length →
      stride_conv g k s =
        .ok (List.replicate (pyRangeCount (usable (g.length : Int) (k.length : Int)) s) [])) := by
  constructor
  · intro hlt
    have hc : pyRangeCount (usable (g.length : Int) (k.length : Int)) s = 0 := by
      rw [usable_eq_neg_one g.length k.length hlt]
      exact pyRangeCount_neg_one s hs
    rw [stride_conv_eq g k s (by omega) (by omega) (by omega), pyRange_eq_nil _ _ hc]
    rfl
  · intro hlt
    have hkh : ¬((k.headD []).length : Int) = 0 := by
      exact_mod_cast (by omega : ¬(k.headD []).length = 0)
    have hy : pyRange (usable ((g.headD []).length : Int) ((k.headD []).length : Int)) s = [] := by
      apply pyRange_eq_nil
      rw [usable_eq_neg_one ((g.headD []).length) ((k.headD []).length) hlt]
      exact pyRangeCount_neg_one s hs
    rw [stride_conv_eq g k s (by omega) (by omega) (by omega)]
    rw [exceptMap_ok_of_forall _ (fun _ => ([] : List Int)) _
      (fun a _ => by rw [if_neg hkh, hy]; rfl)]
    rw [List.map_const', pyRange_length]

/-- Witness for the amended C4: one instance per branch. -/
theorem C4_amended_witness :
    stride_conv [[1], [2]] [[1, 1]] 1 =
      .ok (List.replicate
        (pyRangeCount (usable (([[1], [2]] : List (List Int)).length : Int)
          (([[1, 1]] : List (List Int)).length : Int)) 1) []) ∧
    stride_conv [[1, 2]] [[1], [2], [3]] 1 = .ok [] :=
  ⟨(C4_amended [[1], [2]] [[1, 1]] 1 (by decide) (by decide) (by decide)).2 (by decide),
   (C4_amended [[1, 2]] [[1], [2], [3]] 1 (by decide) (by decide) (by decide)).1 (by decide)⟩

/-! ### Claim C2 -/

/-- Claim C2 (evaluating the code at the failing inputs): the source sets
`end = kernw` and slices BOTH axes with it, so the claimed window
`[i, i+kernelWidth) × [j, j+kernelHeight)` is not what the code extracts.
For the 3×3 all-ones grid with the non-square 2×3 all-ones kernel at stride 1
the spec-mandated reduction of the window at (0,0) is 6, but the code slices a
2×2 sub-grid which cannot broadcast against the 2×3 kernel, raising ValueError;
for grid [[1,2,3],[4,5,6]] with the 1×2 all-ones kernel the code returns [[2]]
(the 1×1 sub-grid broadcast against the kernel) where the spec-mandated window
value is 1·1 + 2·1 = 3. -/
theorem C2_code_bug_eval :
    stride_conv [[1, 1, 1], [1, 1, 1], [1, 1, 1]] [[1, 1, 1], [1, 1, 1]] 1 =
      .error "ValueError: operands could not be broadcast together" ∧
    spec_window_sum [[1, 1, 1], [1, 1, 1], [1, 1, 1]] [[1, 1, 1], [1, 1, 1]] 0 0 = 6 ∧
    stride_conv [[1, 2, 3], [4, 5, 6]] [[1, 1]] 1 = .ok [[2]] ∧
    spec_window_sum [[1, 2, 3], [4, 5, 6]] [[1, 1]] 0 0 = 3 :=
  ⟨rfl, rfl, rfl, rfl⟩

/-! ### Claim C6 (counterexample) -/

/-- Claim C6 counterexample: the all-ones (but non-square) 1×2 kernel at
stride 1 on [[1,2,3],[4,5,6]] produces the single output cell 2, while the
corresponding raw window [[1, 2]] has plain element sum 3. -/
theorem C6_counterexample :
    stride_conv [[1, 2, 3], [4, 5, 6]] (allOnes 1 2) 1 = .ok [[2]] ∧
    ((slice2d [[1, 2, 3], [4, 5, 6]] 0 1 0 2).map List.sum).sum = 3 ∧
    (2 : Int) ≠ 3 :=
  ⟨rfl, rfl, by decide⟩

/-! ### Helper lemmas for the all-ones / stride-1 analysis (claim C6) -/

theorem pySlice_nat {α : Type} (l : List α) (r kw : Nat) :
    pySlice l (r : Int) ((kw : Int) + (r : Int)) = (l.drop r).take kw := by
  simp only [pySlice]
  rw [if_neg (show ¬((r : Int) < 0) by omega),
    if_neg (show ¬((kw : Int) + (r : Int) < 0) by omega)]
  have h1 : (min ((kw : Int) + (r : Int)) ((l.length : Nat) : Int)).toNat
      = min (kw + r) l.length := by omega
  have h2 : (min ((r : Nat) : Int) ((l.length : Nat) : Int)).toNat = min r l.length := by omega
  rw [h1, h2, List.drop_take]
  have h3 : l.drop (min r l.length) = l.drop r := by
    rcases le_or_lt r l.length with hle | hlt
    · rw [min_eq_left hle]
    · rw [min_eq_right (le_of_lt hlt)]
      rw [List.drop_eq_nil_of_le (le_refl _), List.drop_eq_nil_of_le (le_of_lt hlt)]
  rw [h3]
  apply List.take_eq_take.mpr
  rw [List.length_drop]
  omega

theorem take_one_drop {α : Type} (l : List α) (i : Nat) (h : i < l.length) :
    (l.drop i).take 1 = [l[i]] := by
  rw [List.drop_eq_getElem_cons h]
  rfl

theorem isRect_row (g : List (List Int)) (hg : isRect g = true)
    (row : List Int) (hrow : row ∈ g) : row.length = (g.headD []).length := by
  unfold isRect at hg
  rw [List.all_eq_true] at hg
  simpa using hg row hrow

theorem usable_lt_imp (extent kw i : Nat) (hkw : 1 ≤ kw)
    (hi : (i : Int) < usable (extent : Int) (kw : Int)) :
    i + extent % kw + 2 ≤ extent := by
  unfold usable at hi
  have hcast : ((extent % kw : Nat) : Int) = (extent : Int) % (kw : Int) := by
    push_cast
    ring
  rw [← hcast] at hi
  omega

theorem fit_of_compat (extent kw i : Nat) (hkw : 1 ≤ kw)
    (hi : (i : Int) < usable (extent : Int) (kw : Int))
    (hc : bcompat (min kw (extent - i)) kw = true) :
    kw ≤ extent - i := by
  have h1 := usable_lt_imp extent kw i hkw hi
  have h2 : extent % kw < kw := Nat.mod_lt extent (by omega)
  have h3 : (kw ≤ extent - i ∨ kw ⊓ (extent - i) = 1) ∨ kw = 1 := by
    simpa [bcompat] using hc
  omega

theorem bidx_of_lt (a i : Nat) (h : i < a) : bidx a i = i := by
  unfold bidx
  split
  · omega
  · rfl

theorem allOnes_length (w h : Nat) : (allOnes w h).length = w := by
  simp [allOnes]

theorem allOnes_headD (w h : Nat) (hw : 1 ≤ w) :
    (allOnes w h).headD [] = List.replicate h 1 := by
  cases w with
  | zero => omega
  | succ n =>
    rw [allOnes, List.replicate_succ, List.headD_cons]

theorem elemAt_allOnes (w h i j : Nat) (hi : i < w) (hj : j < h) :
    elemAt (allOnes w h) i j = 1 := by
  unfold elemAt allOnes
  have h1 : (List.replicate w (List.replicate h (1 : Int))).getD i [] = List.replicate h 1 := by
    rw [List.getD_eq_getElem _ _
      (show i < (List.replicate w (List.replicate h (1 : Int))).length by simpa using hi)]
    exact List.getElem_replicate _ _
  have h2 : (List.replicate h (1 : Int)).getD j 0 = 1 := by
    rw [List.getD_eq_getElem _ _
      (show j < (List.replicate h (1 : Int)).length by simpa using hj)]
    exact List.getElem_replicate _ _
  rw [h1, h2]

theorem sum_range_getD (l : List Int) :
    ((List.range l.length).map (fun j => l.getD j 0)).sum = l.sum := by
  induction l with
  | nil => rfl
  | cons x xs ih =>
    rw [List.length_cons, List.range_succ_eq_map]
    simp only [List.map_cons, List.map_map, List.sum_cons, List.getD_cons_zero]
    have hc : ((fun j => (x :: xs).getD j 0) ∘ Nat.succ) = fun j => xs.getD j 0 := by
      funext j
      simp [List.getD_cons_succ]
    rw [hc, ih]

theorem sum_range2_elemAt (m : List (List Int)) (C : Nat)
    (hC : ∀ row ∈ m, row.length = C) :
    ((List.range m.length).map (fun i =>
      ((List.range C).map (fun j => elemAt m i j)).sum)).sum = (m.map List.sum).sum := by
  induction m with
  | nil => rfl
  | cons row rest ih =>
    rw [List.length_cons, List.range_succ_eq_map]
    simp only [List.map_cons, List.map_map, List.sum_cons]
    have h0 : ((List.range C).map (fun j => elemAt (row :: rest) 0 j)).sum = row.sum := by
      have hrow : row.length = C := hC row (List.mem_cons_self row rest)
      rw [← hrow]
      have he : ((List.range row.length).map (fun j => elemAt (row :: rest) 0 j))
          = (List.range row.length).map (fun j => row.getD j 0) := by
        apply List.map_congr_left
        intro j hj
        simp [elemAt]
      rw [he, sum_range_getD]
    have hs : ((List.range rest.length).map
          ((fun i => ((List.range C).map (fun j => elemAt (row :: rest) i j)).sum) ∘ Nat.succ))
        = (List.range rest.length).map
          (fun i => ((List.range C).map (fun j => elemAt rest i j)).sum) := by
      apply List.map_congr_left
      intro i hi
      simp only [Function.comp_apply]
      congr 1
    rw [h0, hs, ih (fun r hr => hC r (List.mem_cons_of_mem row hr))]

theorem allOnes_headD_length (w h : Nat) (hw : 1 ≤ w) :
    ((allOnes w h).headD []).length = h := by
  rw [allOnes_headD w h hw, List.length_replicate]

theorem npMulSum_allOnes (m : List (List Int)) (kw : Nat) (hkw : 1 ≤ kw)
    (hlen : m.length = kw) (hrow : ∀ row ∈ m, row.length = kw) :
    npMulSum m (allOnes kw kw) = .ok ((m.map List.sum).sum) := by
  have hmb : (m.headD []).length = kw := by
    cases m with
    | nil =>
      rw [List.length_nil] at hlen
      omega
    | cons r rest =>
      rw [List.headD_cons]
      exact hrow r (List.mem_cons_self r rest)
  simp only [npMulSum]
  rw [hlen, hmb, allOnes_length, allOnes_headD_length kw kw hkw]
  have hbc : bcompat kw kw = true := by simp [bcompat]
  rw [hbc]
  simp only [Bool.and_self, if_true]
  have hbd : bdim kw kw = kw := by
    unfold bdim
    split <;> rfl
  rw [hbd]
  congr 1
  have h2 := sum_range2_elemAt m kw hrow
  rw [hlen] at h2
  rw [← h2]
  apply congrArg List.sum
  apply List.map_congr_left
  intro i hi
  have hi2 : i < kw := List.mem_range.mp hi
  apply congrArg List.sum
  apply List.map_congr_left
  intro j hj
  have hj2 : j < kw := List.mem_range.mp hj
  rw [bidx_of_lt kw i hi2, bidx_of_lt kw j hj2, elemAt_allOnes kw kw i j hi2 hj2, mul_one]

theorem stride_conv_cell (g : List (List Int)) (kw : Nat) (hkw : 1 ≤ kw)
    (hrect : isRect g = true) (out : List (List Int))
    (h : stride_conv g (allOnes kw kw) 1 = .ok out)
    (r c : Nat) (hr : r < out.length) (hc : c < out[r].length) :
    out[r][c] = ((slice2d g (r : Int) ((r : Int) + (kw : Int)) (c : Int)
      ((c : Int) + (kw : Int))).map List.sum).sum := by
  have hgl : g.length ≠ 0 := (stride_conv_ok_guards _ _ _ _ h).1
  have hkl : (allOnes kw kw).length ≠ 0 := by
    rw [allOnes_length]
    omega
  rw [stride_conv_eq g (allOnes kw kw) 1 hgl hkl (by omega)] at h
  simp only [allOnes_length, allOnes_headD_length kw kw hkw] at h
  have hkw0 : ¬((kw : Nat) : Int) = 0 := by omega
  have hlenO := exceptMap_length _ _ _ h
  have hrO : r < (pyRange (usable ((g.length : Nat) : Int) ((kw : Nat) : Int)) 1).length := by
    omega
  have hFi := exceptMap_getElem _ _ _ h r hrO hr
  rw [pyRange_getElem _ _ _ hrO] at hFi
  simp only [mul_one, if_neg hkw0] at hFi
  have hlenI := exceptMap_length _ _ _ hFi
  have hcI : c < (pyRange (usable (((g.headD []).length : Nat) : Int) ((kw : Nat) : Int)) 1).length := by
    omega
  have hGj := exceptMap_getElem _ _ _ hFi c hcI hc
  rw [pyRange_getElem _ _ _ hcI] at hGj
  simp only [mul_one] at hGj
  have hrx : ((r : Nat) : Int) < usable ((g.length : Nat) : Int) ((kw : Nat) : Int) := by
    rw [pyRange_length, pyRangeCount_one] at hrO
    omega
  have hcy : ((c : Nat) : Int) < usable (((g.headD []).length : Nat) : Int) ((kw : Nat) : Int) := by
    rw [pyRange_length, pyRangeCount_one] at hcI
    omega
  have hsubeq : slice2d g ((r : Nat) : Int) (((kw : Nat) : Int) + ((r : Nat) : Int))
        ((c : Nat) : Int) (((kw : Nat) : Int) + ((c : Nat) : Int))
      = ((g.drop r).take kw).map
        (fun row => pySlice row ((c : Nat) : Int) (((kw : Nat) : Int) + ((c : Nat) : Int))) := by
    simp only [slice2d]
    rw [pySlice_nat g r kw]
  rw [hsubeq] at hGj
  have hgr2 : r + 2 ≤ g.length := by
    have h5 := usable_lt_imp g.length kw r hkw hrx
    omega
  have hne : (g.drop r).take kw ≠ [] := by
    intro hemp
    have h6 := congrArg List.length hemp
    simp only [List.length_take, List.length_drop, List.length_nil] at h6
    omega
  obtain ⟨row0, rows, hresteq⟩ := List.exists_cons_of_ne_nil hne
  have hrow0mem : row0 ∈ g := by
    have h7 : row0 ∈ (g.drop r).take kw := by
      rw [hresteq]
      exact List.mem_cons_self _ _
    exact List.mem_of_mem_drop (List.mem_of_mem_take h7)
  have hsublen : (((g.drop r).take kw).map
        (fun row => pySlice row ((c : Nat) : Int) (((kw : Nat) : Int) + ((c : Nat) : Int)))).length
      = min kw (g.length - r) := by
    simp [List.length_take, List.length_drop]
  have hsubheadlen : ((((g.drop r).take kw).map
        (fun row => pySlice row ((c : Nat) : Int) (((kw : Nat) : Int) + ((c : Nat) : Int)))).headD []).length
      = min kw ((g.headD []).length - c) := by
    rw [hresteq, List.map_cons, List.headD_cons, pySlice_nat row0 c kw,
      List.length_take, List.length_drop, isRect_row g hrect row0 hrow0mem]
  have hcompat : bcompat (min kw (g.length - r)) kw = true ∧
      bcompat (min kw ((g.headD []).length - c)) kw = true := by
    by_contra hcon
    have hGj2 := hGj
    simp only [npMulSum, allOnes_length, allOnes_headD_length kw kw hkw] at hGj2
    rw [hsublen, hsubheadlen] at hGj2
    rw [if_neg] at hGj2
    · cases hGj2
    · intro habs
      rw [Bool.and_eq_true] at habs
      exact hcon ⟨habs.1, habs.2⟩
  have hfitR : kw ≤ g.length - r := fit_of_compat g.length kw r hkw hrx hcompat.1
  have hfitC : kw ≤ (g.headD []).length - c :=
    fit_of_compat (g.headD []).length kw c hkw hcy hcompat.2
  have hsl : (((g.drop r).take kw).map
        (fun row => pySlice row ((c : Nat) : Int) (((kw : Nat) : Int) + ((c : Nat) : Int)))).length
      = kw := by
    rw [hsublen]
    omega
  have hsr : ∀ row2 ∈ ((g.drop r).take kw).map
        (fun row => pySlice row ((c : Nat) : Int) (((kw : Nat) : Int) + ((c : Nat) : Int))),
      row2.length = kw := by
    intro row2 hrow2
    obtain ⟨row, hrowin, hroweq⟩ := List.mem_map.mp hrow2
    have hrowg : row ∈ g := List.mem_of_mem_drop (List.mem_of_mem_take hrowin)
    rw [← hroweq, pySlice_nat row c kw, List.length_take, List.length_drop,
      isRect_row g hrect row hrowg]
    omega
  rw [npMulSum_allOnes _ kw hkw hsl hsr] at hGj
  rw [show (((r : Nat) : Int) + ((kw : Nat) : Int)) = (((kw : Nat) : Int) + ((r : Nat) : Int)) by ring,
    show (((c : Nat) : Int) + ((kw : Nat) : Int)) = (((kw : Nat) : Int) + ((c : Nat) : Int)) by ring,
    hsubeq]
  exact (Except.ok.inj hGj).symm

/-! ### Claim C6 (amended) -/

/-- Claim C6 amended: for SQUARE all-ones kernels (the non-square case fails,
see the counterexample) with stride 1, every cell of a successful result
equals the plain element sum of the raw window the code slices at the cell's
anchor; in particular, for the 1×1 all-ones kernel the result is the input
grid with its last row and last column removed by the boundary truncation. -/
theorem C6_amended (g : List (List Int)) (kw : Nat) (hkw : 1 ≤ kw)
    (hrect : isRect g = true) (out : List (List Int))
    (h : stride_conv g (allOnes kw kw) 1 = .ok out) :
    (∀ (r c : Nat) (hr : r < out.length) (hc : c < out[r].length),
      out[r][c] = ((slice2d g (r : Int) ((r : Int) + (kw : Int)) (c : Int)
        ((c : Int) + (kw : Int))).map List.sum).sum) ∧
    (kw = 1 → out = g.dropLast.map List.dropLast) := by
  constructor
  · intro r c hr hc
    exact stride_conv_cell g kw hkw hrect out h r c hr hc
  · intro hkw1
    subst hkw1
    have hgl : g.length ≠ 0 := (stride_conv_ok_guards _ _ _ _ h).1
    have hu1 : usable ((g.length : Nat) : Int) (((1 : Nat) : Nat) : Int)
        = ((g.length : Nat) : Int) - 1 := by
      simp [usable]
    have holen : out.length = g.length - 1 := by
      have h2 := stride_conv_out_length _ _ _ _ h
      rw [allOnes_length, hu1, pyRangeCount_one] at h2
      omega
    apply List.ext_getElem (by simp [List.length_dropLast]; omega)
    intro r h1 h2
    rw [List.getElem_map]
    have hgr : r < g.length := by omega
    have hrowlen : out[r].length = (g.headD []).length - 1 := by
      have h3 := stride_conv_row_length _ _ _ _ h out[r] (List.getElem_mem h1)
      rw [allOnes_headD_length 1 1 (by omega)] at h3
      have hu2 : usable (((g.headD []).length : Nat) : Int) (((1 : Nat) : Nat) : Int)
          = (((g.headD []).length : Nat) : Int) - 1 := by
        simp [usable]
      rw [hu2, pyRangeCount_one] at h3
      omega
    have hrowlen2 : g[r].length = (g.headD []).length :=
      isRect_row g hrect g[r] (List.getElem_mem hgr)
    apply List.ext_getElem
    · rw [List.getElem_dropLast, List.length_dropLast]
      omega
    · intro c hc1 hc2
      have hcg : c < g[r].length := by
        rw [List.getElem_dropLast, List.length_dropLast] at hc2
        omega
      have hcell := stride_conv_cell g 1 (by omega) hrect out h r c h1 hc1
      have hslice : slice2d g ((r : Nat) : Int) (((r : Nat) : Int) + (((1 : Nat) : Nat) : Int))
            ((c : Nat) : Int) (((c : Nat) : Int) + (((1 : Nat) : Nat) : Int))
          = [[g[r][c]]] := by
        simp only [slice2d]
        rw [show (((r : Nat) : Int) + (((1 : Nat) : Nat) : Int))
            = ((((1 : Nat) : Nat) : Int) + ((r : Nat) : Int)) by ring,
          pySlice_nat g r 1, take_one_drop g r hgr]
        simp only [List.map_cons, List.map_nil]
        rw [show (((c : Nat) : Int) + (((1 : Nat) : Nat) : Int))
            = ((((1 : Nat) : Nat) : Int) + ((c : Nat) : Int)) by ring,
          pySlice_nat (g[r]) c 1, take_one_drop (g[r]) c hcg]
      rw [hcell, hslice]
      simp [List.getElem_dropLast]

/-- Witness for the amended C6: 2×2 grid, 1×1 all-ones kernel, stride 1. -/
theorem C6_amended_witness :
    (∀ (r c : Nat) (hr : r < ([[1]] : List (List Int)).length)
      (hc : c < (([[1]] : List (List Int))[r]).length),
      ([[1]] : List (List Int))[r][c] =
        ((slice2d [[1, 2], [3, 4]] (r : Int) ((r : Int) + ((1 : Nat) : Int)) (c : Int)
          ((c : Int) + ((1 : Nat) : Int))).map List.sum).sum) ∧
    ((1 : Nat) = 1 →
      ([[1]] : List (List Int)) =
        ([[1, 2], [3, 4]] : List (List Int)).dropLast.map List.dropLast) :=
  C6_amended [[1, 2], [3, 4]] 1 (by decide) (by decide) [[1]] rfl
